import Mathlib

/-!
Verification of the llms.txt generator service (`main.py`, `helpers.py`,
`client.py`).

Python strings are modelled as lists of Unicode code points (`List Nat`);
the Python string primitives the service uses (`lower`, `title`, `split`,
`replace`, `join`, `strip`, string comparison) are translated below at the
ASCII level at which the service applies them.  Fallible Python code is
translated to `Option`/`Except`; the external crawling provider and the
filesystem are oracles passed in explicitly.
-/

/-- A Python string, as its list of Unicode code points. -/
abbrev PyStr := List Nat

/-- The code points of a Lean string literal. -/
def pstr (s : String) : PyStr := s.toList.map Char.toNat

/-- Python `str.lower`, pointwise on an ASCII code point. -/
def lowerN (c : Nat) : Nat := if 65 ≤ c ∧ c ≤ 90 then c + 32 else c

/-- Python `str.upper`, pointwise on an ASCII code point. -/
def upperN (c : Nat) : Nat := if 97 ≤ c ∧ c ≤ 122 then c - 32 else c

/-- An ASCII cased (alphabetic) code point, the notion of "cased character"
Python's `str.title` uses, restricted to ASCII. -/
def isAlphaP (c : Nat) : Prop := (65 ≤ c ∧ c ≤ 90) ∨ (97 ≤ c ∧ c ≤ 122)

instance (c : Nat) : Decidable (isAlphaP c) := by unfold isAlphaP; infer_instance

/-- Python `str.lower` on a whole string. -/
def pyLower (s : PyStr) : PyStr := s.map lowerN

/-- Python `str.title`: a cased character is uppercased when the previous
character is not cased and lowercased otherwise; the Boolean argument tracks
whether the previous character was cased. -/
def pyTitleAux : Bool → List Nat → List Nat
  | _, [] => []
  | prevCased, c :: rest =>
    (if isAlphaP c then (if prevCased then lowerN c else upperN c) else c)
      :: pyTitleAux (decide (isAlphaP c)) rest

/-- Python `str.title` on a whole string. -/
def pyTitle (s : PyStr) : PyStr := pyTitleAux false s

/-- Python `str.replace(a, b)` for one-character `a` and `b`. -/
def pyReplaceChar (a b : Nat) (s : PyStr) : PyStr :=
  s.map (fun c => if c = a then b else c)

/-- Python `str.split(sep)` for a one-character separator: splits at every
occurrence, keeping empty pieces (`"".split(sep) == [""]`). -/
def pySplitChar (sep : Nat) : List Nat → List (List Nat)
  | [] => [[]]
  | c :: rest =>
    match pySplitChar sep rest with
    | [] => [[]]
    | s :: ss => if c = sep then [] :: s :: ss else (c :: s) :: ss

/-- Python `sep.join(parts)`. -/
def joinSep (sep : PyStr) : List PyStr → PyStr
  | [] => []
  | [s] => s
  | s :: rest => s ++ sep ++ joinSep sep rest

/-- Decimal digits of a positive number, most significant first; the first
argument is fuel bounding the number of digits. -/
def natDigitsAux : Nat → Nat → List Nat
  | 0, _ => []
  | _ + 1, 0 => []
  | fuel + 1, n + 1 => natDigitsAux fuel ((n + 1) / 10) ++ [48 + (n + 1) % 10]

/-- Python `str(n)` for a natural number. -/
def natStr (n : Nat) : PyStr := if n = 0 then pstr "0" else natDigitsAux (n + 1) n

/-- Python string `<`: lexicographic comparison of code points, a proper
initial segment being smaller. -/
def lexLt : List Nat → List Nat → Bool
  | _, [] => false
  | [], _ :: _ => true
  | a :: as, b :: bs => if a < b then true else if b < a then false else lexLt as bs

/-- Python whitespace (ASCII), as stripped by `str.strip()`. -/
def isSpaceN (c : Nat) : Bool := c == 32 || c == 9 || c == 10 || c == 13 || c == 11 || c == 12

/-- ASCII digit. -/
def isDigitN (c : Nat) : Bool := decide (48 ≤ c ∧ c ≤ 57)

/-- ASCII letter, as a Boolean. -/
def isAlphaB (c : Nat) : Bool := decide (isAlphaP c)

/-- A character allowed in a URL scheme by `urllib.parse` (letters, digits,
`+`, `-`, `.`). -/
def isSchemeChar (c : Nat) : Bool := isAlphaB c || isDigitN c || c == 43 || c == 45 || c == 46

/-! ### `urllib.parse.urlparse` -/

/-- The result of Python `urllib.parse.urlsplit`. -/
structure SplitResult where
  scheme : PyStr
  netloc : PyStr
  path : PyStr
  query : PyStr
  fragment : PyStr
deriving DecidableEq, Repr

/-- The result of Python `urllib.parse.urlparse` (`urlsplit` plus the
parameter component split off the last path segment). -/
structure UrlParseResult where
  scheme : PyStr
  netloc : PyStr
  path : PyStr
  params : PyStr
  query : PyStr
  fragment : PyStr
deriving DecidableEq, Repr

/-- Split a string at the first occurrence of `sep`: returns the part before
and, when `sep` occurs, the part after it. -/
def splitAtFirst (sep : Nat) : PyStr → PyStr × Option PyStr
  | [] => ([], none)
  | c :: rest =>
    if c = sep then ([], some rest)
    else
      match splitAtFirst sep rest with
      | (l, r) => (c :: l, r)

/-- `urlsplit` scheme recognition: the text before the first `:` counts as a
scheme when it is non-empty, starts with an ASCII letter and consists of
scheme characters. -/
def validScheme (before : PyStr) : Bool :=
  match before with
  | [] => false
  | c :: _ => isAlphaB c && before.all isSchemeChar

/-- Scan an authority component: the netloc runs until the first `/`, `?`
or `#`. -/
def splitNetlocAux : PyStr → PyStr × PyStr
  | [] => ([], [])
  | c :: rest =>
    if c = 47 ∨ c = 63 ∨ c = 35 then ([], c :: rest)
    else
      match splitNetlocAux rest with
      | (n, r) => (c :: n, r)

/-- Split fragment (at the first `#`) and then query (at the first `?`) off
the remainder, as `urlsplit` does. -/
def finishSplit (scheme netloc rest1 : PyStr) : SplitResult :=
  let fr := match splitAtFirst 35 rest1 with
    | (before, some after) => (before, after)
    | (before, none) => (before, ([] : PyStr))
  let qr := match splitAtFirst 63 fr.1 with
    | (before, some after) => (before, after)
    | (before, none) => (before, ([] : PyStr))
  ⟨scheme, netloc, qr.1, qr.2, fr.2⟩

/-- Python `urllib.parse.urlsplit`.  Returns `none` where CPython raises
`ValueError("Invalid IPv6 URL")`: an authority containing exactly one of
`[`, `]`.  (The NFKC netloc re-check, which concerns non-ASCII input only,
is not modelled.) -/
def pyUrlsplit (url : PyStr) : Option SplitResult :=
  let schemeRest :=
    match splitAtFirst 58 url with
    | (before, some after) =>
      if validScheme before then (pyLower before, after) else (([] : PyStr), url)
    | (_, none) => (([] : PyStr), url)
  match schemeRest.2 with
  | 47 :: 47 :: tail =>
    match splitNetlocAux tail with
    | (netloc, rest1) =>
      if (netloc.contains 91) != (netloc.contains 93) then none
      else some (finishSplit schemeRest.1 netloc rest1)
  | other => some (finishSplit schemeRest.1 [] other)

/-- Locate the last `/` of a string: `some (b, a)` when `s = b ++ '/' :: a`
with `a` slash-free. -/
def splitAtLastSlash : PyStr → Option (PyStr × PyStr)
  | [] => none
  | c :: rest =>
    match splitAtLastSlash rest with
    | some (b, a) => some (c :: b, a)
    | none => if c = 47 then some ([], rest) else none

/-- `urllib.parse._splitparams`: split `;params` off the last path segment. -/
def splitParams (path : PyStr) : PyStr × PyStr :=
  match splitAtLastSlash path with
  | some (b, a) =>
    match splitAtFirst 59 a with
    | (s1, some s2) => (b ++ 47 :: s1, s2)
    | (_, none) => (path, [])
  | none =>
    match splitAtFirst 59 path with
    | (s1, some s2) => (s1, s2)
    | (_, none) => (path, [])

/-- Python `urllib.parse.urlparse`. -/
def pyUrlparse (url : PyStr) : Option UrlParseResult :=
  (pyUrlsplit url).map fun r =>
    let pp := splitParams r.path
    ⟨r.scheme, r.netloc, pp.1, pp.2, r.query, r.fragment⟩

namespace Main

/-- `main.py` `validate_url_scheme`: the parsed scheme must be `http` or
`https`.  `none` models `urlparse` raising `ValueError` (which this function
does not catch). -/
def validate_url_scheme (url : PyStr) : Option Bool :=
  (pyUrlsplit url).map fun r =>
    r.scheme == pstr "http" || r.scheme == pstr "https"

end Main

namespace Helpers

/-- `helpers.py` `validate_url_scheme`: scheme must be `http` or `https`
and the netloc must be non-empty. -/
def validate_url_scheme (url : PyStr) : Option Bool :=
  (pyUrlsplit url).map fun r =>
    (r.scheme == pstr "http" || r.scheme == pstr "https") && !r.netloc.isEmpty

end Helpers

/-! ### Data model -/

/-- The metadata mapping of a crawled page.  `none` models an absent key;
a present key holds a string (a present-but-`None` value behaves like the
empty string everywhere the service reads these keys). -/
structure Metadata where
  sourceURL : Option PyStr
  title : Option PyStr
  description : Option PyStr
deriving DecidableEq, Repr

/-- A crawled page object; `metadata` is `none` when the page carries no
(or an empty) metadata mapping. -/
structure CrawledPage where
  metadata : Option Metadata
deriving DecidableEq, Repr

/-- A FastAPI `HTTPException`. -/
structure HTTPException where
  status_code : Nat
  detail : PyStr
deriving DecidableEq, Repr

/-- An exception escaping a pipeline stage: either an `HTTPException` (re-raised
as-is by the endpoint) or any other Python exception, carried as its text. -/
inductive PyExc where
  | http (e : HTTPException)
  | err (msg : PyStr)
deriving DecidableEq, Repr

deriving instance DecidableEq for Except

/-- `url_groups`: an insertion-ordered dict from group key to the pages
appended under it. -/
abbrev GroupDict := List (PyStr × List CrawledPage)

/-! ### `group_crawled_pages` -/

/-- Whether a page passes the `if not page.metadata or not
page.metadata.get("sourceURL")` guard: metadata present with a non-empty
`sourceURL` value. -/
def usableSource (q : CrawledPage) : Bool :=
  match q.metadata with
  | none => false
  | some m =>
    match m.sourceURL with
    | none => false
    | some u => !u.isEmpty

/-- The group key computed from a parsed path: split on `/`, drop empty
segments; `"Homepage"` when none remain, else the first segment with `-`
replaced by a space and title-cased. -/
def groupKeyOfPath (path : PyStr) : PyStr :=
  match (pySplitChar 47 path).filter (fun s => !s.isEmpty) with
  | [] => pstr "Homepage"
  | s :: _ => pyTitle (pyReplaceChar 45 32 s)

/-- The group key assigned to a page by the loop body of
`group_crawled_pages`, `none` when the page is filtered (guard fails or
`urlparse` raises inside the `try`). -/
def pageKey (page : CrawledPage) : Option PyStr :=
  match page.metadata with
  | none => none
  | some m =>
    match m.sourceURL with
    | none => none
    | some u =>
      if u.isEmpty then none
      else
        match pyUrlparse u with
        | none => none
        | some r => some (groupKeyOfPath r.path)

/-- `url_groups[key].append(page)` on an insertion-ordered dict. -/
def dictAppend (k : PyStr) (x : CrawledPage) : GroupDict → GroupDict
  | [] => [(k, [x])]
  | (k0, ps) :: rest =>
    if k0 = k then (k0, ps ++ [x]) :: rest
    else (k0, ps) :: dictAppend k x rest

/-- The `for page in pages` loop of `group_crawled_pages`, threading the
dict and the `processed_count` / `filtered_count` counters. -/
def groupLoop : List CrawledPage → GroupDict → Nat → Nat → GroupDict × Nat × Nat
  | [], g, p, f => (g, p, f)
  | page :: rest, g, p, f =>
    match pageKey page with
    | none => groupLoop rest g p (f + 1)
    | some k => groupLoop rest (dictAppend k page g) (p + 1) f

/-- `main.py` `group_crawled_pages`. -/
def group_crawled_pages (pages : List CrawledPage) : Except PyExc GroupDict :=
  if pages.isEmpty then
    .error (.http ⟨404, pstr "No pages were found to process"⟩)
  else
    match groupLoop pages [] 0 0 with
    | (g, p, f) =>
      if p = 0 then
        .error (.http ⟨404,
          pstr "No valid pages found after filtering. Processed: " ++ natStr p
            ++ pstr ", Filtered: " ++ natStr f⟩)
      else .ok g

/-! ### `format_groups_to_llmstxt` -/

/-- One `- [{title}]({url})` entry line, from a page's metadata mapping and
the enclosing group's name (`title` falls back to `"No Title"` when absent
and to the group name when falsy; a falsy description adds no suffix). -/
def renderEntry (group_name : PyStr) (m : Metadata) : PyStr :=
  let title0 := match m.title with
    | none => pstr "No Title"
    | some t => t
  let title := if title0.isEmpty then group_name else title0
  let url := match m.sourceURL with
    | none => pstr "None"
    | some u => u
  let base := pstr "- [" ++ title ++ pstr "](" ++ url ++ pstr ")"
  match m.description with
  | none => base
  | some d => if d.isEmpty then base else base ++ pstr ": " ++ d

/-- The entry line for a page, when its metadata object is present. -/
def entryOf (group_name : PyStr) (q : CrawledPage) : PyStr :=
  match q.metadata with
  | none => []
  | some m => renderEntry group_name m

/-- The inner `for page in pages` loop of `format_groups_to_llmstxt`;
`none` models the `AttributeError` raised by `page.metadata.get` when
`metadata` is `None`. -/
def entriesOf (group_name : PyStr) : List CrawledPage → Option (List PyStr)
  | [] => some []
  | q :: qs =>
    match q.metadata with
    | none => none
    | some m => (entriesOf group_name qs).map (fun es => renderEntry group_name m :: es)

/-- Insert a `(key, pages)` pair into a list sorted by key. -/
def insertPair (x : PyStr × List CrawledPage) :
    GroupDict → GroupDict
  | [] => [x]
  | y :: ys => if lexLt x.1 y.1 then x :: y :: ys else y :: insertPair x ys

/-- `sorted(url_groups.items())`: ascending lexicographic key order. -/
def sortByKey (l : GroupDict) : GroupDict := l.foldr insertPair []

/-- `final_output_parts`: for each group, in sorted order, a heading part
`## {group_name}` followed by a separate part holding the `\n`-joined
entry lines. -/
def partsOf : GroupDict → Option (List PyStr)
  | [] => some []
  | (k, ps) :: rest =>
    match entriesOf k ps with
    | none => none
    | some es =>
      (partsOf rest).map (fun tail => (pstr "## " ++ k) :: joinSep (pstr "\n") es :: tail)

/-- `main.py` `format_groups_to_llmstxt`. -/
def format_groups_to_llmstxt (g : GroupDict) : Except PyExc PyStr :=
  if g.isEmpty then .error (.http ⟨404, pstr "No content to format"⟩)
  else
    match partsOf (sortByKey g) with
    | none => .error (.err (pstr "'NoneType' object has no attribute 'get'"))
    | some parts =>
      let result := joinSep (pstr "\n\n") parts
      if result.all isSpaceN then .error (.http ⟨404, pstr "Generated content is empty"⟩)
      else .ok result

/-! ### `perform_crawl` and error classification -/

/-- The outcome of the Firecrawl `crawl_url` call, as an oracle: the call
raised an exception with the given text, returned a falsy response, or
returned a response whose `data` is the given (possibly empty) list. -/
inductive ProviderOutcome where
  | raised (desc : PyStr)
  | noResponse
  | result (data : List CrawledPage)
deriving DecidableEq, Repr

/-- Whether a string starts with the given pattern. -/
def startsWith : PyStr → PyStr → Bool
  | [], _ => true
  | _ :: _, [] => false
  | a :: as, b :: bs => a == b && startsWith as bs

/-- Python `pat in s` on strings: `pat` occurs as a contiguous substring. -/
def pyContains (pat : PyStr) : PyStr → Bool
  | [] => pat.isEmpty
  | c :: rest => startsWith pat (c :: rest) || pyContains pat rest

/-- The provider-error classification shared by `main.py` `perform_crawl`
and `helpers.py` `handle_crawl_exception`: first-match substring tests on
the exception text. -/
def handle_crawl_exception (e : PyStr) : HTTPException :=
  if pyContains (pstr "timeout") (pyLower e) then
    ⟨408, pstr "Request timed out. The website may be too large or slow to respond."⟩
  else if pyContains (pstr "rate limit") (pyLower e) || pyContains (pstr "quota") (pyLower e) then
    ⟨429, pstr "Rate limit exceeded. Please try again later."⟩
  else if pyContains (pstr "not found") (pyLower e) || pyContains (pstr "404") e then
    ⟨404, pstr "Website not found or inaccessible."⟩
  else
    ⟨502, pstr "An error occurred with the crawling service: " ++ e⟩

/-- `main.py` `perform_crawl`.  The `limit` argument is forwarded to the
provider and does not otherwise affect control flow; the provider's
behaviour is the `out` oracle. -/
def perform_crawl (target_url : PyStr) (limit : Int) (out : ProviderOutcome) :
    Except PyExc (List CrawledPage) :=
  match Main.validate_url_scheme target_url with
  | none => .error (.err (pstr "Invalid IPv6 URL"))
  | some false => .error (.http ⟨400, pstr "Only HTTP and HTTPS URLs are supported"⟩)
  | some true =>
    match out with
    | .raised e => .error (.http (handle_crawl_exception e))
    | .noResponse => .error (.http ⟨404, pstr "No Response Found!"⟩)
    | .result data =>
      if data.isEmpty then .error (.http ⟨404, pstr "No Data Found!"⟩)
      else .ok data

/-! ### The synchronous `/generate-llms-txt` endpoint (`main.py`) -/

/-- The filesystem oracle for one request: whether opening/writing the
output file succeeds. -/
def attempt_write (ok : Bool) : Except PyStr Unit :=
  if ok then .ok () else .error (pstr "io error")

/-- `main.py` `write_output_to_file`: an `IOError` is logged and swallowed,
so the function returns no information either way. -/
def write_output_to_file (ok : Bool) : Unit :=
  match attempt_write ok with
  | .ok _ => ()
  | .error _ => ()

/-- An HTTP response: status code and plain-text body. -/
abbrev HttpResponse := Nat × PyStr

/-- The body of `main.py` `generate_llms_txt`: crawl, group, format, then a
best-effort file write; an `HTTPException` raised by a helper is re-raised,
any other exception becomes a 500 response. -/
def generate_llms_txt (url : PyStr) (limit : Int) (out : ProviderOutcome)
    (writeOk : Bool) : HttpResponse :=
  match perform_crawl url limit out with
  | .error (.http e) => (e.status_code, e.detail)
  | .error (.err m) => (500, pstr "An unexpected error occurred: " ++ m)
  | .ok pages =>
    match group_crawled_pages pages with
    | .error (.http e) => (e.status_code, e.detail)
    | .error (.err m) => (500, pstr "An unexpected error occurred: " ++ m)
    | .ok g =>
      match format_groups_to_llmstxt g with
      | .error (.http e) => (e.status_code, e.detail)
      | .error (.err m) => (500, pstr "An unexpected error occurred: " ++ m)
      | .ok doc =>
        match write_output_to_file writeOk with
        | () => (200, doc)

/-- The JSON value supplied for the `limit` field of `CrawlRequest`:
absent, JSON `null`, an integer, or something that is not an integer. -/
inductive JsonLimit where
  | absent
  | null
  | int (n : Int)
  | nonInt
deriving DecidableEq, Repr

/-- The pydantic validation of `CrawlRequest.limit`: the field defaults to
`20` when absent, a non-integer fails type validation, and the
`validate_limit` field validator rejects values outside `1..500` (a `None`
value passes the validator). -/
def validate_limit : JsonLimit → Except PyStr (Option Int)
  | .absent => .ok (some 20)
  | .null => .ok none
  | .nonInt => .error (pstr "Input should be a valid integer")
  | .int n =>
    if n < 1 ∨ n > 500 then .error (pstr "Limit must be between 1 and 500")
    else .ok (some n)

/-- `limit = request.limit or 20` in the endpoint body. -/
def effective_limit : Option Int → Int
  | none => 20
  | some n => if n = 0 then 20 else n

/-- A validated `CrawlRequest`. -/
structure ParsedRequest where
  url : PyStr
  limit : Option Int
deriving DecidableEq, Repr

/-- The pydantic request-parsing boundary of `POST /generate-llms-txt`:
`url` must be an `HttpUrl` (modelled as: parses with scheme `http`/`https`
and a non-empty host; pydantic's URL normalisation is not modelled) and
`limit` must pass `validate_limit`.  Errors here are returned before the
handler body — and hence before any provider call — runs. -/
def parse_request (url : PyStr) (lf : JsonLimit) : Except PyStr ParsedRequest :=
  match pyUrlsplit url with
  | none => .error (pstr "Invalid IPv6 URL")
  | some r =>
    if (r.scheme == pstr "http" || r.scheme == pstr "https") && !r.netloc.isEmpty then
      match validate_limit lf with
      | .error m => .error m
      | .ok l => .ok ⟨url, l⟩
    else .error (pstr "URL scheme should be http or https")

/-- The full service behaviour for one `POST /generate-llms-txt` request:
pydantic validation, then the handler body. -/
def service_handle (url : PyStr) (lf : JsonLimit) (out : ProviderOutcome)
    (writeOk : Bool) : HttpResponse :=
  match parse_request url lf with
  | .error m => (422, m)
  | .ok req => generate_llms_txt req.url (effective_limit req.limit) out writeOk

/-! ### The polling client (`client.py` `run_job`) -/

/-- What one `requests.get(status_url)` produces: a network-level
exception, or a response with a status code and text body. -/
inductive PollOutcome where
  | netError (msg : PyStr)
  | response (code : Nat) (body : PyStr)
deriving DecidableEq, Repr

/-- An observable action of the polling loop. -/
inductive ClientEvent where
  | getStatus
  | sleepSec (n : Nat)
deriving DecidableEq, Repr

/-- How the polling loop ends.  `httpFailure` is `raise_for_status` raising
(status 400..599) and `netFailure` the GET itself raising; both are rendered
as an error panel and break the loop.  `scriptEnded` is a model artifact:
the finite script of outcomes was exhausted while the loop would continue. -/
inductive LoopResult where
  | success (body : PyStr)
  | httpFailure (code : Nat) (body : PyStr)
  | netFailure (msg : PyStr)
  | scriptEnded
deriving DecidableEq, Repr

/-- The `while True` polling loop of `client.py` `run_job`, run against a
finite script of poll outcomes; returns the result and the trace of
requests and sleeps. -/
def run_poll_loop : List PollOutcome → LoopResult × List ClientEvent
  | [] => (.scriptEnded, [])
  | o :: rest =>
    match o with
    | .netError m => (.netFailure m, [.getStatus])
    | .response code body =>
      if code = 202 then
        match run_poll_loop rest with
        | (r, t) => (r, .getStatus :: .sleepSec 5 :: t)
      else if 400 ≤ code ∧ code < 600 then (.httpFailure code body, [.getStatus])
      else (.success body, [.getStatus])

/-- A scripted poll outcome that keeps the loop going: a 202 response. -/
def is202 : PollOutcome → Bool
  | .netError _ => false
  | .response c _ => c == 202

/-! ### The asynchronous job endpoints (spec-modelled)

`src/client.py` polls `GET /crawl-status/{job_id}` after reading `job_id`
and `status_url` from `POST /generate-llms-txt`, but the server revision
implementing those asynchronous endpoints is not among the sources; only
its caller is.  The two handlers are therefore modelled from the spec,
reusing the aggregation pipeline that is in `main.py`. -/

/-- A provider job status. -/
inductive JobStatus where
  | pending
  | running
  | completed
  | failed
  | cancelled
deriving DecidableEq, Repr

/-- The provider-side name of a job status. -/
def statusText : JobStatus → PyStr
  | .pending => pstr "pending"
  | .running => pstr "running"
  | .completed => pstr "completed"
  | .failed => pstr "failed"
  | .cancelled => pstr "cancelled"

/-- A provider job record as observed by one status poll. -/
structure ProviderJob where
  status : JobStatus
  completedPages : Nat
  totalPages : Nat
  data : List CrawledPage
deriving DecidableEq, Repr

/-- The aggregation pipeline applied to a completed job's data: group then
format (both from `main.py`). -/
def aggregatePipeline (pages : List CrawledPage) : Except PyExc PyStr :=
  match group_crawled_pages pages with
  | .error e => .error e
  | .ok g => format_groups_to_llmstxt g

/-- Modelled from the spec: the asynchronous `POST /generate-llms-txt`
handler.  For a valid request it responds 202-equivalent with a JSON body
`{job_id, status_url}`, the status URL being the path of
`GET /crawl-status/{job_id}`; the document itself is not in this
response.  (The async server revision is absent from the sources; this
follows §6 of the spec and the fields `src/client.py` reads.) -/
def generate_llms_txt_async (job_id : PyStr) : Nat × PyStr × PyStr :=
  (202, job_id, pstr "/crawl-status/" ++ job_id)

/-- Modelled from the spec: the `GET /crawl-status/{job_id}` handler.
202 with a plain-text progress message while the job is pending or
running; on `completed`, the aggregated document computed by the real
`main.py` pipeline (200 on success, the pipeline's error response
otherwise); 400 with a plain-text notice when the job failed or was
cancelled. -/
def crawl_status (job : ProviderJob) : HttpResponse :=
  match job.status with
  | .pending | .running =>
    (202, pstr "Job is still running. Status: " ++ statusText job.status
      ++ pstr ". Completed " ++ natStr job.completedPages ++ pstr "/"
      ++ natStr job.totalPages ++ pstr " pages.")
  | .failed | .cancelled =>
    (400, pstr "Job failed or was cancelled. Status: " ++ statusText job.status)
  | .completed =>
    match aggregatePipeline job.data with
    | .ok doc => (200, doc)
    | .error (.http e) => (e.status_code, e.detail)
    | .error (.err m) => (500, pstr "An unexpected error occurred: " ++ m)

/-! ### Verification-side definitions -/

/-- All pages stored in a group dict, in dict order. -/
def allPages : GroupDict → List CrawledPage
  | [] => []
  | (_, ps) :: rest => ps ++ allPages rest

/-- Key order on dict entries: `a` precedes `b` when `b`'s key is not
strictly below `a`'s. -/
def keyLe (a b : PyStr × List CrawledPage) : Prop := lexLt b.1 a.1 = false

/-- The parts list `format_groups_to_llmstxt` builds when every page's
metadata mapping is present: per group a heading part and an entry-block
part. -/
def flatParts : GroupDict → List PyStr
  | [] => []
  | (k, ps) :: rest =>
    (pstr "## " ++ k) :: joinSep (pstr "\n") (ps.map (entryOf k)) :: flatParts rest

/-- The group-section rendering the amended specification describes:
`## {groupKey}`, a blank line, then the entry lines joined by single
newlines. -/
def specRenderGroup (kps : PyStr × List CrawledPage) : PyStr :=
  pstr "## " ++ kps.1 ++ pstr "\n\n" ++ joinSep (pstr "\n") (kps.2.map (entryOf kps.1))

/-- The document rendering the amended specification describes: group
sections in ascending lexicographic key order, separated by one blank
line. -/
def specFormat (g : GroupDict) : PyStr :=
  joinSep (pstr "\n\n") ((sortByKey g).map specRenderGroup)

/-- One entry line as the original claim words it: the title falls back to
the group key when the page has no title, and a `: {description}` suffix is
added exactly when a description is present. -/
def claimEntry (k : PyStr) (q : CrawledPage) : PyStr :=
  match q.metadata with
  | none => []
  | some m =>
    let title := match m.title with
      | none => k
      | some t => if t.isEmpty then k else t
    let url := match m.sourceURL with
      | none => pstr "None"
      | some u => u
    let base := pstr "- [" ++ title ++ pstr "](" ++ url ++ pstr ")"
    match m.description with
    | none => base
    | some d => base ++ pstr ": " ++ d

/-- The document rendering the original claim describes: each heading line
directly followed by its entry lines, with a blank line only between
groups. -/
def claimFormat (g : GroupDict) : PyStr :=
  joinSep (pstr "\n\n")
    ((sortByKey g).map (fun kps => pstr "## " ++ kps.1 ++ pstr "\n"
      ++ joinSep (pstr "\n") (kps.2.map (claimEntry kps.1))))

/-- Sample pages used to instantiate theorems. -/
def pageHome : CrawledPage :=
  ⟨some ⟨some (pstr "https://example.com/"), some (pstr "Home"), none⟩⟩

def pagePost : CrawledPage :=
  ⟨some ⟨some (pstr "https://example.com/blog/post-1"), some (pstr "Post 1"),
    some (pstr "first post")⟩⟩

def pageAboutTeam : CrawledPage :=
  ⟨some ⟨some (pstr "https://x.com/about-us/team"), none, none⟩⟩

def pageAboutBio : CrawledPage :=
  ⟨some ⟨some (pstr "https://x.com/About-Us/bio"), none, none⟩⟩

def pageNoMeta : CrawledPage := ⟨none⟩

def cexPage1 : CrawledPage := ⟨some ⟨some (pstr "https://x.com/blog"), none, none⟩⟩

def cexPage2 : CrawledPage :=
  ⟨some ⟨some (pstr "https://x.com/blog/a"), some (pstr "T"), some []⟩⟩

def cexGroup : GroupDict := [(pstr "Blog", [cexPage1, cexPage2])]

/-! ### Helper lemmas -/

theorem lexLt_asymm : ∀ a b : PyStr, lexLt a b = true → lexLt b a = false := by
  intro a
  induction a with
  | nil =>
    intro b h
    cases b with
    | nil => simp [lexLt] at h
    | cons d bs => simp [lexLt]
  | cons c as ih =>
    intro b h
    cases b with
    | nil => simp [lexLt] at h
    | cons d bs =>
      simp only [lexLt] at h ⊢
      split_ifs at h ⊢ <;>
        first
          | rfl
          | omega
          | exact Bool.noConfusion h
          | exact ih bs h

theorem lexLt_trans : ∀ a b c : PyStr, lexLt a b = true → lexLt b c = true →
    lexLt a c = true := by
  intro a
  induction a with
  | nil =>
    intro b c h1 h2
    cases b with
    | nil => simp [lexLt] at h1
    | cons y bs =>
      cases c with
      | nil => simp [lexLt] at h2
      | cons z cs => simp [lexLt]
  | cons x as ih =>
    intro b c h1 h2
    cases b with
    | nil => simp [lexLt] at h1
    | cons y bs =>
      cases c with
      | nil => simp [lexLt] at h2
      | cons z cs =>
        simp only [lexLt] at h1 h2 ⊢
        split_ifs at h1 h2 ⊢ <;>
          first
            | rfl
            | omega
            | exact Bool.noConfusion h1
            | exact Bool.noConfusion h2
            | exact ih bs cs h1 h2

theorem lexLt_connex : ∀ a b : PyStr, lexLt a b = false → lexLt b a = false → a = b := by
  intro a
  induction a with
  | nil =>
    intro b h1 _
    cases b with
    | nil => rfl
    | cons d bs => simp [lexLt] at h1
  | cons c as ih =>
    intro b h1 h2
    cases b with
    | nil => simp [lexLt] at h2
    | cons d bs =>
      simp only [lexLt] at h1 h2
      split_ifs at h1 h2 <;>
        first
          | exact Bool.noConfusion h1
          | exact Bool.noConfusion h2
          | (have hcd : c = d := by omega
             rw [hcd, ih bs h1 h2])

theorem insertPair_perm (x : PyStr × List CrawledPage) :
    ∀ l : GroupDict, List.Perm (insertPair x l) (x :: l) := by
  intro l
  induction l with
  | nil => simp [insertPair]
  | cons y ys ih =>
    simp only [insertPair]
    split_ifs with h
    · exact List.Perm.refl _
    · exact (ih.cons y).trans (List.Perm.swap x y ys)

theorem sortByKey_perm : ∀ l : GroupDict, List.Perm (sortByKey l) l := by
  intro l
  induction l with
  | nil => simp [sortByKey]
  | cons a l ih =>
    have : sortByKey (a :: l) = insertPair a (sortByKey l) := rfl
    rw [this]
    exact (insertPair_perm a (sortByKey l)).trans (ih.cons a)

theorem insertPair_sorted (x : PyStr × List CrawledPage) :
    ∀ l : GroupDict, List.Pairwise keyLe l → List.Pairwise keyLe (insertPair x l) := by
  intro l
  induction l with
  | nil => intro _; simp [insertPair, List.pairwise_singleton]
  | cons y ys ih =>
    intro hp
    obtain ⟨hy, hys⟩ := List.pairwise_cons.mp hp
    simp only [insertPair]
    split_ifs with h
    · refine List.pairwise_cons.mpr ⟨?_, hp⟩
      intro z hz
      rcases List.mem_cons.mp hz with rfl | hz2
      · exact lexLt_asymm _ _ h
      · cases hzx : lexLt z.1 x.1 with
        | false => exact hzx
        | true =>
          have h3 := lexLt_trans _ _ _ hzx h
          rw [hy z hz2] at h3
          exact Bool.noConfusion h3
    · refine List.pairwise_cons.mpr ⟨?_, ih hys⟩
      intro z hz
      rcases List.mem_cons.mp ((insertPair_perm x ys).mem_iff.mp hz) with rfl | hz2
      · cases hxy : lexLt z.1 y.1 with
        | false => exact hxy
        | true => exact absurd hxy h
      · exact hy z hz2

theorem sortByKey_sorted : ∀ l : GroupDict, List.Pairwise keyLe (sortByKey l) := by
  intro l
  induction l with
  | nil => simp [sortByKey]
  | cons a l ih => exact insertPair_sorted a (sortByKey l) ih

theorem sortByKey_sorted_ascending (l : GroupDict) :
    List.Pairwise (fun a b : PyStr × List CrawledPage =>
      lexLt a.1 b.1 = true ∨ a.1 = b.1) (sortByKey l) := by
  refine (sortByKey_sorted l).imp ?_
  intro a b hab
  cases hd : lexLt a.1 b.1 with
  | true => exact Or.inl rfl
  | false => exact Or.inr (lexLt_connex _ _ hd hab)

theorem titleStep_congr {a b : Nat} (p : Bool) (h : lowerN a = lowerN b) :
    ((if isAlphaP a then (if p then lowerN a else upperN a) else a)
      = (if isAlphaP b then (if p then lowerN b else upperN b) else b))
    ∧ decide (isAlphaP a) = decide (isAlphaP b) := by
  constructor
  · simp only [lowerN, upperN, isAlphaP] at h ⊢
    split_ifs at h ⊢ <;> omega
  · refine decide_eq_decide.mpr ?_
    simp only [lowerN] at h
    simp only [isAlphaP]
    split_ifs at h <;> omega

theorem pyTitleAux_congr : ∀ (s t : List Nat) (p : Bool), pyLower s = pyLower t →
    pyTitleAux p s = pyTitleAux p t := by
  intro s
  induction s with
  | nil =>
    intro t p h
    cases t with
    | nil => rfl
    | cons b bs => simp [pyLower] at h
  | cons a as ih =>
    intro t p h
    cases t with
    | nil => simp [pyLower] at h
    | cons b bs =>
      simp only [pyLower, List.map_cons, List.cons.injEq] at h
      obtain ⟨h1, h2⟩ := h
      obtain ⟨e1, e2⟩ := titleStep_congr p h1
      simp only [pyTitleAux, e1, e2]
      rw [ih bs (decide (isAlphaP b)) h2]

theorem pyTitle_congr (s t : PyStr) (h : pyLower s = pyLower t) :
    pyTitle s = pyTitle t :=
  pyTitleAux_congr s t false h

theorem pageKey_none_of_unusable {q : CrawledPage} (h : usableSource q = false) :
    pageKey q = none := by
  obtain ⟨meta⟩ := q
  cases meta with
  | none => rfl
  | some m =>
    obtain ⟨su, ti, de⟩ := m
    cases su with
    | none => rfl
    | some u =>
      have hu : u.isEmpty = true := by
        simp only [usableSource] at h
        revert h
        cases u.isEmpty <;> simp
      simp [pageKey, hu]

theorem usable_of_pageKey_some {q : CrawledPage} {k : PyStr} (h : pageKey q = some k) :
    ∃ m u, q.metadata = some m ∧ m.sourceURL = some u ∧ u ≠ [] := by
  obtain ⟨meta⟩ := q
  cases meta with
  | none => exact Option.noConfusion h
  | some m =>
    obtain ⟨su, ti, de⟩ := m
    cases su with
    | none => exact Option.noConfusion h
    | some u =>
      refine ⟨⟨some u, ti, de⟩, u, rfl, rfl, ?_⟩
      intro hnil
      subst hnil
      exact Option.noConfusion h

theorem groupLoop_counts : ∀ (pages : List CrawledPage) (g : GroupDict) (p f : Nat),
    (groupLoop pages g p f).2.1 = p + (pages.filter (fun q => (pageKey q).isSome)).length
    ∧ (groupLoop pages g p f).2.2 = f + (pages.filter (fun q => (pageKey q).isNone)).length := by
  intro pages
  induction pages with
  | nil => intro g p f; simp [groupLoop]
  | cons q qs ih =>
    intro g p f
    cases hk : pageKey q with
    | none =>
      have h2 := ih g p (f + 1)
      simp only [groupLoop, hk, List.filter_cons, Option.isSome_none, Option.isNone_none,
        Bool.false_eq_true, if_false, if_true, List.length_cons]
      constructor
      · rw [h2.1]
      · rw [h2.2]; omega
    | some k =>
      have h2 := ih (dictAppend k q g) (p + 1) f
      simp only [groupLoop, hk, List.filter_cons, Option.isSome_some, Option.isNone_some,
        Bool.false_eq_true, if_false, if_true, List.length_cons]
      constructor
      · rw [h2.1]; omega
      · rw [h2.2]

theorem allPages_dictAppend (k : PyStr) (x : CrawledPage) :
    ∀ g : GroupDict, List.Perm (allPages (dictAppend k x g)) (x :: allPages g) := by
  intro g
  induction g with
  | nil => simp [dictAppend, allPages]
  | cons y rest ih =>
    obtain ⟨k0, ps⟩ := y
    simp only [dictAppend]
    split_ifs with h
    · simp only [allPages, List.append_assoc, List.singleton_append]
      exact List.perm_middle
    · simp only [allPages]
      exact (ih.append_left ps).trans List.perm_middle

theorem groupLoop_perm : ∀ (pages : List CrawledPage) (g : GroupDict) (p f : Nat),
    List.Perm (allPages (groupLoop pages g p f).1)
      (allPages g ++ pages.filter (fun q => (pageKey q).isSome)) := by
  intro pages
  induction pages with
  | nil => intro g p f; simp [groupLoop]
  | cons q qs ih =>
    intro g p f
    cases hk : pageKey q with
    | none =>
      simp only [groupLoop, hk, List.filter_cons, Option.isSome_none, Bool.false_eq_true,
        if_false]
      exact ih g p (f + 1)
    | some k =>
      simp only [groupLoop, hk, List.filter_cons, Option.isSome_some, if_true]
      refine (ih (dictAppend k q g) (p + 1) f).trans ?_
      refine ((allPages_dictAppend k q g).append_right _).trans ?_
      simp only [List.cons_append]
      exact List.perm_middle.symm

theorem dictAppend_mem_key {k : PyStr} {x : CrawledPage}
    (hx : pageKey x = some k) :
    ∀ g : GroupDict, (∀ k1 ps, (k1, ps) ∈ g → ∀ q ∈ ps, pageKey q = some k1) →
      ∀ k1 ps, (k1, ps) ∈ dictAppend k x g → ∀ q ∈ ps, pageKey q = some k1 := by
  intro g
  induction g with
  | nil =>
    intro _ k1 ps hmem q hq
    simp only [dictAppend, List.mem_singleton, Prod.mk.injEq] at hmem
    obtain ⟨e1, e2⟩ := hmem
    rw [e2] at hq
    simp only [List.mem_singleton] at hq
    rw [hq, e1]
    exact hx
  | cons y rest ih =>
    intro hg k1 ps hmem q hq
    obtain ⟨k0, ps0⟩ := y
    simp only [dictAppend] at hmem
    split_ifs at hmem with he
    · rcases List.mem_cons.mp hmem with hh | ht
      · simp only [Prod.mk.injEq] at hh
        obtain ⟨e1, e2⟩ := hh
        rw [e2] at hq
        rcases List.mem_append.mp hq with hq1 | hq2
        · rw [e1]
          exact hg k0 ps0 (List.mem_cons_self _ _) q hq1
        · simp only [List.mem_singleton] at hq2
          rw [hq2, e1, he]
          exact hx
      · exact hg k1 ps (List.mem_cons_of_mem _ ht) q hq
    · rcases List.mem_cons.mp hmem with hh | ht
      · simp only [Prod.mk.injEq] at hh
        obtain ⟨e1, e2⟩ := hh
        rw [e2] at hq
        rw [e1]
        exact hg k0 ps0 (List.mem_cons_self _ _) q hq
      · exact ih (fun k2 ps2 hm => hg k2 ps2 (List.mem_cons_of_mem _ hm)) k1 ps ht q hq

theorem groupLoop_mem_key : ∀ (pages : List CrawledPage) (g : GroupDict) (p f : Nat),
    (∀ k1 ps, (k1, ps) ∈ g → ∀ q ∈ ps, pageKey q = some k1) →
    ∀ k1 ps, (k1, ps) ∈ (groupLoop pages g p f).1 → ∀ q ∈ ps, pageKey q = some k1 := by
  intro pages
  induction pages with
  | nil => intro g p f hg; exact hg
  | cons q qs ih =>
    intro g p f hg
    cases hk : pageKey q with
    | none =>
      simp only [groupLoop, hk]
      exact ih g p (f + 1) hg
    | some k =>
      simp only [groupLoop, hk]
      exact ih (dictAppend k q g) (p + 1) f (dictAppend_mem_key hk g hg)

theorem entriesOf_eq (k : PyStr) : ∀ ps : List CrawledPage,
    (∀ q ∈ ps, (CrawledPage.metadata q).isSome = true) →
    entriesOf k ps = some (ps.map (entryOf k)) := by
  intro ps
  induction ps with
  | nil => intro _; rfl
  | cons q qs ih =>
    intro h
    have hq := h q (List.mem_cons_self _ _)
    cases hm : q.metadata with
    | none => rw [hm] at hq; exact Bool.noConfusion hq
    | some m =>
      simp only [entriesOf, hm, List.map_cons]
      rw [ih (fun r hr => h r (List.mem_cons_of_mem _ hr))]
      have he : entryOf k q = renderEntry k m := by simp [entryOf, hm]
      simp [he]

theorem partsOf_eq : ∀ l : GroupDict,
    (∀ kp ∈ l, ∀ q ∈ kp.2, (CrawledPage.metadata q).isSome = true) →
    partsOf l = some (flatParts l) := by
  intro l
  induction l with
  | nil => intro _; rfl
  | cons y rest ih =>
    intro h
    obtain ⟨k, ps⟩ := y
    have h1 : ∀ q ∈ ps, (CrawledPage.metadata q).isSome = true :=
      fun q hq => h (k, ps) (List.mem_cons_self _ _) q hq
    simp only [partsOf, entriesOf_eq k ps h1]
    rw [ih (fun kp hkp q hq => h kp (List.mem_cons_of_mem _ hkp) q hq)]
    simp [flatParts]

theorem joinSep_cons_cons (sep a b : PyStr) (l : List PyStr) :
    joinSep sep (a :: b :: l) = a ++ sep ++ joinSep sep (b :: l) := rfl

theorem joinSep_flatParts : ∀ l : GroupDict,
    joinSep (pstr "\n\n") (flatParts l)
      = joinSep (pstr "\n\n") (l.map specRenderGroup) := by
  intro l
  induction l with
  | nil => rfl
  | cons y rest ih =>
    obtain ⟨k, ps⟩ := y
    cases rest with
    | nil => simp [flatParts, joinSep, specRenderGroup, List.append_assoc]
    | cons y2 r2 =>
      obtain ⟨k2, ps2⟩ := y2
      simp only [flatParts, List.map_cons, specRenderGroup] at ih ⊢
      rw [joinSep_cons_cons, joinSep_cons_cons, ih]
      cases hr : r2 <;>
        simp [flatParts, joinSep, List.append_assoc]

theorem format_not_space (k e : PyStr) (rest : List PyStr) :
    (joinSep (pstr "\n\n") ((pstr "## " ++ k) :: e :: rest)).all isSpaceN = false := by
  have h3 : pstr "## " = 35 :: 35 :: 32 :: [] := rfl
  rw [joinSep_cons_cons, h3]
  simp [List.all_cons, isSpaceN]

theorem format_eq_specFormat (g : GroupDict) (hne : g ≠ [])
    (hmeta : ∀ kp ∈ g, ∀ q ∈ kp.2, (CrawledPage.metadata q).isSome = true) :
    format_groups_to_llmstxt g = .ok (specFormat g) := by
  have hemp : g.isEmpty = false := by
    cases g with
    | nil => exact absurd rfl hne
    | cons a l => rfl
  have hs : partsOf (sortByKey g) = some (flatParts (sortByKey g)) := by
    apply partsOf_eq
    intro kp hkp q hq
    exact hmeta kp ((sortByKey_perm g).mem_iff.mp hkp) q hq
  obtain ⟨k, ps, rest, hy⟩ : ∃ k ps rest, sortByKey g = (k, ps) :: rest := by
    cases hsk : sortByKey g with
    | nil =>
      exfalso
      have hlen := (sortByKey_perm g).length_eq
      rw [hsk] at hlen
      cases g with
      | nil => exact hne rfl
      | cons a l => simp at hlen
    | cons y rest =>
      obtain ⟨k, ps⟩ := y
      exact ⟨k, ps, rest, rfl⟩
  have hflat : flatParts (sortByKey g)
      = (pstr "## " ++ k) :: joinSep (pstr "\n") (ps.map (entryOf k)) :: flatParts rest := by
    rw [hy]; rfl
  have hspace : (joinSep (pstr "\n\n") (flatParts (sortByKey g))).all isSpaceN = false := by
    rw [hflat]
    exact format_not_space k _ _
  unfold format_groups_to_llmstxt
  rw [hemp, hs]
  simp only [Bool.false_eq_true, if_false]
  rw [hspace]
  simp only [Bool.false_eq_true, if_false]
  unfold specFormat
  rw [joinSep_flatParts]

theorem filter_some_none_length (pages : List CrawledPage) :
    (pages.filter (fun q => (pageKey q).isSome)).length
      + (pages.filter (fun q => (pageKey q).isNone)).length = pages.length := by
  induction pages with
  | nil => rfl
  | cons q qs ih =>
    cases hk : pageKey q with
    | none => simp [List.filter_cons, hk]; omega
    | some k => simp [List.filter_cons, hk]; omega

/-! ### Claim theorems -/

/-- C2: for every crawled page whose source URL is present and parseable,
the grouping loop assigns it a group key that is a pure function of the
parsed URL path — `Homepage` when the path has no non-empty segments,
otherwise the first non-empty segment with hyphens replaced by spaces and
title-cased — and any two pages whose first non-empty path segments agree
modulo hyphen and case normalisation receive the same group key. -/
theorem C2_group_key_pure_function :
    (∀ (page : CrawledPage) (m : Metadata) (u : PyStr) (r : UrlParseResult),
      page.metadata = some m → m.sourceURL = some u → u ≠ [] →
      pyUrlparse u = some r → pageKey page = some (groupKeyOfPath r.path))
    ∧ (∀ path : PyStr, (pySplitChar 47 path).filter (fun s => !s.isEmpty) = [] →
        groupKeyOfPath path = pstr "Homepage")
    ∧ (∀ (path s : PyStr) (rest : List PyStr),
        (pySplitChar 47 path).filter (fun s => !s.isEmpty) = s :: rest →
        groupKeyOfPath path = pyTitle (pyReplaceChar 45 32 s))
    ∧ (∀ (p1 p2 s1 s2 : PyStr) (r1 r2 : List PyStr),
        (pySplitChar 47 p1).filter (fun s => !s.isEmpty) = s1 :: r1 →
        (pySplitChar 47 p2).filter (fun s => !s.isEmpty) = s2 :: r2 →
        pyLower (pyReplaceChar 45 32 s1) = pyLower (pyReplaceChar 45 32 s2) →
        groupKeyOfPath p1 = groupKeyOfPath p2) := by
  refine ⟨?_, ?_, ?_, ?_⟩
  · intro page m u r h1 h2 h3 h4
    have hu : u.isEmpty = false := by
      cases u with
      | nil => exact absurd rfl h3
      | cons c cs => rfl
    simp [pageKey, h1, h2, hu, h4]
  · intro path h
    simp [groupKeyOfPath, h]
  · intro path s rest h
    simp [groupKeyOfPath, h]
  · intro p1 p2 s1 s2 r1 r2 h1 h2 hl
    simp only [groupKeyOfPath, h1, h2]
    exact pyTitle_congr _ _ hl

/-- C2 witness: `https://x.com/about-us/team` and `https://x.com/About-Us/bio`
are both assigned the key `About Us`. -/
theorem C2_witness :
    pageKey pageAboutTeam = some (pstr "About Us")
    ∧ pageKey pageAboutBio = some (pstr "About Us") := by
  have h1 := C2_group_key_pure_function.1 pageAboutTeam
    ⟨some (pstr "https://x.com/about-us/team"), none, none⟩
    (pstr "https://x.com/about-us/team")
    ⟨pstr "https", pstr "x.com", pstr "/about-us/team", [], [], []⟩
    rfl rfl (by decide) (by decide)
  have h2 := C2_group_key_pure_function.1 pageAboutBio
    ⟨some (pstr "https://x.com/About-Us/bio"), none, none⟩
    (pstr "https://x.com/About-Us/bio")
    ⟨pstr "https", pstr "x.com", pstr "/About-Us/bio", [], [], []⟩
    rfl rfl (by decide) (by decide)
  exact ⟨h1.trans (by decide), h2.trans (by decide)⟩

/-- C4: `group_crawled_pages` fails with the no-pages 404 on an empty input;
on a non-empty input in which no page has a usable source URL it fails with
the no-valid-pages 404 carrying the processed (0) and filtered (length)
counts; and a page without a usable source URL is never placed in any group
and is counted as filtered rather than aborting the job. -/
theorem C4_group_failures :
    group_crawled_pages [] = .error (.http ⟨404, pstr "No pages were found to process"⟩)
    ∧ (∀ pages : List CrawledPage, pages ≠ [] →
        (∀ q ∈ pages, usableSource q = false) →
        group_crawled_pages pages = .error (.http ⟨404,
          pstr "No valid pages found after filtering. Processed: " ++ natStr 0
            ++ pstr ", Filtered: " ++ natStr pages.length⟩))
    ∧ (∀ (pages : List CrawledPage) (q : CrawledPage) (g : GroupDict),
        q ∈ pages → usableSource q = false →
        group_crawled_pages pages = .ok g →
        (∀ k ps, (k, ps) ∈ g → q ∉ ps)
        ∧ (groupLoop pages [] 0 0).2.2
            = (pages.filter (fun x => (pageKey x).isNone)).length
        ∧ (pageKey q).isNone = true) := by
  refine ⟨rfl, ?_, ?_⟩
  · intro pages hne h
    have hemp : pages.isEmpty = false := by
      cases pages with
      | nil => exact absurd rfl hne
      | cons a l => rfl
    have hall : ∀ q ∈ pages, pageKey q = none :=
      fun q hq => pageKey_none_of_unusable (h q hq)
    have hc := groupLoop_counts pages [] 0 0
    have hp : (groupLoop pages [] 0 0).2.1 = 0 := by
      rw [hc.1]
      have : pages.filter (fun q => (pageKey q).isSome) = [] := by
        apply List.filter_eq_nil_iff.mpr
        intro q hq
        rw [hall q hq]
        simp
      rw [this]
      rfl
    have hf : (groupLoop pages [] 0 0).2.2 = pages.length := by
      rw [hc.2]
      have : pages.filter (fun q => (pageKey q).isNone) = pages := by
        apply List.filter_eq_self.mpr
        intro q hq
        rw [hall q hq]
        rfl
      rw [this]
      omega
    rcases hr : groupLoop pages [] 0 0 with ⟨g, p, f⟩
    rw [hr] at hp hf
    simp only at hp hf
    simp only [group_crawled_pages, hemp, Bool.false_eq_true, if_false, hr, hp, hf,
      if_true]
  · intro pages q g hq hbad hok
    have hgl : g = (groupLoop pages [] 0 0).1 := by
      simp only [group_crawled_pages] at hok
      split_ifs at hok with h1 h2
      exact (Except.ok.inj hok).symm
    refine ⟨?_, by rw [(groupLoop_counts pages [] 0 0).2]; omega, ?_⟩
    · intro k ps hkp hmem
      have hkey := groupLoop_mem_key pages [] 0 0
        (by intro k1 ps1 hm; exact absurd hm (List.not_mem_nil _)) k ps
        (hgl ▸ hkp) q hmem
      rw [pageKey_none_of_unusable hbad] at hkey
      exact Option.noConfusion hkey
    · rw [pageKey_none_of_unusable hbad]
      rfl

/-- C4 witness: a singleton input whose page has no metadata mapping
produces the no-valid-pages failure with counts 0 and 1. -/
theorem C4_witness :
    group_crawled_pages [pageNoMeta] = .error (.http ⟨404,
      pstr "No valid pages found after filtering. Processed: 0, Filtered: 1"⟩) := by
  have h := C4_group_failures.2.1 [pageNoMeta] (by decide) (by decide)
  exact h.trans (by decide)

/-- C10: the grouping loop partitions its input — processed plus filtered
counts equal the input length, the pages stored across all groups are, as a
multiset, exactly the pages whose key computation succeeds, every stored
page sits under its own key and carries a metadata mapping with a non-empty
source URL, a successful `group_crawled_pages` run returns exactly the
loop's dict, and a page with an absent metadata mapping is filtered, not an
error. -/
theorem C10_group_partition :
    ∀ pages : List CrawledPage,
      (groupLoop pages [] 0 0).2.1 + (groupLoop pages [] 0 0).2.2 = pages.length
      ∧ (groupLoop pages [] 0 0).2.1
          = (pages.filter (fun q => (pageKey q).isSome)).length
      ∧ (groupLoop pages [] 0 0).2.2
          = (pages.filter (fun q => (pageKey q).isNone)).length
      ∧ List.Perm (allPages (groupLoop pages [] 0 0).1)
          (pages.filter (fun q => (pageKey q).isSome))
      ∧ (∀ k ps, (k, ps) ∈ (groupLoop pages [] 0 0).1 → ∀ q ∈ ps,
          pageKey q = some k
          ∧ ∃ m u, q.metadata = some m ∧ m.sourceURL = some u ∧ u ≠ [])
      ∧ (∀ g : GroupDict, group_crawled_pages pages = .ok g →
          g = (groupLoop pages [] 0 0).1)
      ∧ (∀ q : CrawledPage, q.metadata = none → pageKey q = none) := by
  intro pages
  have hc := groupLoop_counts pages [] 0 0
  refine ⟨?_, ?_, ?_, ?_, ?_, ?_, ?_⟩
  · rw [hc.1, hc.2]
    have := filter_some_none_length pages
    omega
  · rw [hc.1]; omega
  · rw [hc.2]; omega
  · have := groupLoop_perm pages [] 0 0
    simpa [allPages] using this
  · intro k ps hkp q hq
    have hkey := groupLoop_mem_key pages [] 0 0
      (by intro k1 ps1 hm; exact absurd hm (List.not_mem_nil _)) k ps hkp q hq
    exact ⟨hkey, usable_of_pageKey_some hkey⟩
  · intro g hok
    simp only [group_crawled_pages] at hok
    split_ifs at hok with h1 h2
    exact (Except.ok.inj hok).symm
  · intro q hq
    obtain ⟨meta⟩ := q
    simp only at hq
    simp [pageKey, hq]

/-- C10 witness: on the input `[pageHome, pageNoMeta]` the loop processes
one page and filters one, and a successful grouping returns the loop's
dict. -/
theorem C10_witness :
    (groupLoop [pageHome, pageNoMeta] [] 0 0).2.1
        + (groupLoop [pageHome, pageNoMeta] [] 0 0).2.2 = 2
    ∧ [(pstr "Homepage", [pageHome])] = (groupLoop [pageHome, pageNoMeta] [] 0 0).1 := by
  refine ⟨(C10_group_partition [pageHome, pageNoMeta]).1, ?_⟩
  exact (C10_group_partition [pageHome, pageNoMeta]).2.2.2.2.2.1
    [(pstr "Homepage", [pageHome])] (by decide)

/-- C6: provider-call failures are classified once by first-match substring
tests on the (lowercased) error text — `timeout` to 408, then `rate limit`
or `quota` to 429, then `not found` or `404` to 404, and anything else to
502 — the classifier is total with exactly these four outcomes, and a
provider exception inside `perform_crawl` always becomes the classified
`HTTPException`. -/
theorem C6_error_classification :
    (∀ e : PyStr, pyContains (pstr "timeout") (pyLower e) = true →
      handle_crawl_exception e
        = ⟨408, pstr "Request timed out. The website may be too large or slow to respond."⟩)
    ∧ (∀ e : PyStr, pyContains (pstr "timeout") (pyLower e) = false →
        (pyContains (pstr "rate limit") (pyLower e)
          || pyContains (pstr "quota") (pyLower e)) = true →
        handle_crawl_exception e = ⟨429, pstr "Rate limit exceeded. Please try again later."⟩)
    ∧ (∀ e : PyStr, pyContains (pstr "timeout") (pyLower e) = false →
        (pyContains (pstr "rate limit") (pyLower e)
          || pyContains (pstr "quota") (pyLower e)) = false →
        (pyContains (pstr "not found") (pyLower e) || pyContains (pstr "404") e) = true →
        handle_crawl_exception e = ⟨404, pstr "Website not found or inaccessible."⟩)
    ∧ (∀ e : PyStr, pyContains (pstr "timeout") (pyLower e) = false →
        (pyContains (pstr "rate limit") (pyLower e)
          || pyContains (pstr "quota") (pyLower e)) = false →
        (pyContains (pstr "not found") (pyLower e) || pyContains (pstr "404") e) = false →
        handle_crawl_exception e
          = ⟨502, pstr "An error occurred with the crawling service: " ++ e⟩)
    ∧ (∀ e : PyStr, (handle_crawl_exception e).status_code = 408
        ∨ (handle_crawl_exception e).status_code = 429
        ∨ (handle_crawl_exception e).status_code = 404
        ∨ (handle_crawl_exception e).status_code = 502)
    ∧ (∀ (url : PyStr) (limit : Int) (e : PyStr),
        Main.validate_url_scheme url = some true →
        perform_crawl url limit (.raised e) = .error (.http (handle_crawl_exception e))) := by
  refine ⟨?_, ?_, ?_, ?_, ?_, ?_⟩
  · intro e h
    simp [handle_crawl_exception, h]
  · intro e h1 h2
    simp [handle_crawl_exception, h1, h2]
  · intro e h1 h2 h3
    simp only [Bool.or_eq_true] at h3
    simp [handle_crawl_exception, h1, h2, h3]
  · intro e h1 h2 h3
    simp [handle_crawl_exception, h1, h2, h3]
  · intro e
    unfold handle_crawl_exception
    split_ifs <;> simp
  · intro url limit e h
    simp [perform_crawl, h]

/-- C6 witness: concrete classifications of each kind. -/
theorem C6_witness :
    handle_crawl_exception (pstr "Read TIMEOUT reached")
      = ⟨408, pstr "Request timed out. The website may be too large or slow to respond."⟩
    ∧ handle_crawl_exception (pstr "Monthly Quota exceeded")
      = ⟨429, pstr "Rate limit exceeded. Please try again later."⟩
    ∧ handle_crawl_exception (pstr "upstream returned 404")
      = ⟨404, pstr "Website not found or inaccessible."⟩
    ∧ handle_crawl_exception (pstr "boom")
      = ⟨502, pstr "An error occurred with the crawling service: boom"⟩ := by
  refine ⟨C6_error_classification.1 _ (by decide),
    C6_error_classification.2.1 _ (by decide) (by decide),
    C6_error_classification.2.2.1 _ (by decide) (by decide) (by decide), ?_⟩
  have h := C6_error_classification.2.2.2.1 (pstr "boom") (by decide) (by decide) (by decide)
  exact h.trans (by decide)

/-- C9: the response of the generate endpoint is identical whether or not
writing the optional output file succeeds — the write failure is swallowed
inside `write_output_to_file` and never reaches the response. -/
theorem C9_write_failure_swallowed :
    ∀ (url : PyStr) (lf : JsonLimit) (out : ProviderOutcome) (w1 w2 : Bool),
      service_handle url lf out w1 = service_handle url lf out w2 := by
  intro url lf out w1 w2
  cases w1 <;> cases w2 <;> rfl

/-- C5 counterexample: `main.py`'s `validate_url_scheme` accepts
`"http://"` although its netloc is empty, so an empty-host URL passes the
gate and the provider call is made — the claimed "scheme is http/https AND
host non-empty" test does not hold for the validator `perform_crawl`
uses. -/
theorem C5_counterexample :
    Main.validate_url_scheme (pstr "http://") = some true
    ∧ (pyUrlsplit (pstr "http://")).map SplitResult.netloc = some []
    ∧ perform_crawl (pstr "http://") 20 (.result [pageHome]) = .ok [pageHome] := by
  decide

/-- C5 (amended): `main.py`'s `validate_url_scheme` returns true exactly
when the parsed scheme is `http` or `https` — with no host requirement —
while `helpers.py`'s variant additionally requires a non-empty netloc; any
URL failing `main.py`'s scheme test (e.g. `ftp`, missing scheme) is
rejected by `perform_crawl` with a 400 client error, for every provider
behaviour, before the provider call. -/
theorem C5_url_validation :
    (∀ (url : PyStr) (r : SplitResult), pyUrlsplit url = some r →
      (Main.validate_url_scheme url = some true
        ↔ (r.scheme = pstr "http" ∨ r.scheme = pstr "https")))
    ∧ (∀ (url : PyStr) (r : SplitResult), pyUrlsplit url = some r →
      (Helpers.validate_url_scheme url = some true
        ↔ ((r.scheme = pstr "http" ∨ r.scheme = pstr "https") ∧ r.netloc ≠ [])))
    ∧ (∀ (url : PyStr) (limit : Int) (out : ProviderOutcome),
        Main.validate_url_scheme url = some false →
        perform_crawl url limit out
          = .error (.http ⟨400, pstr "Only HTTP and HTTPS URLs are supported"⟩)) := by
  refine ⟨?_, ?_, ?_⟩
  · intro url r h
    simp [Main.validate_url_scheme, h]
  · intro url r h
    simp [Helpers.validate_url_scheme, h, List.isEmpty_iff, and_assoc]
  · intro url limit out h
    simp [perform_crawl, h]

/-- C5 witness: `helpers.py` accepts a well-formed https URL; `ftp://x.com`
fails `main.py`'s validator and `perform_crawl` rejects it with a 400 for
any provider behaviour. -/
theorem C5_witness :
    Helpers.validate_url_scheme (pstr "https://example.com/") = some true
    ∧ Main.validate_url_scheme (pstr "ftp://x.com") = some false
    ∧ perform_crawl (pstr "ftp://x.com") 20 (.result [pageHome])
        = .error (.http ⟨400, pstr "Only HTTP and HTTPS URLs are supported"⟩)
    ∧ Main.validate_url_scheme (pstr "x.com/path") = some false := by
  refine ⟨?_, by decide, C5_url_validation.2.2 (pstr "ftp://x.com") 20 _ (by decide),
    by decide⟩
  exact (C5_url_validation.2.1 (pstr "https://example.com/")
    ⟨pstr "https", pstr "example.com", pstr "/", [], []⟩ (by decide)).mpr (by decide)

/-- C8: request parsing rejects `limit` 0, 501 and non-integers with a
client error before the handler body (and hence any provider call) runs,
accepts 1 and 500, and defaults an omitted `limit` to 20; on a parse
error the service response is the validation message, independent of the
provider and filesystem oracles. -/
theorem C8_limit_validation :
    validate_limit (.int 0) = .error (pstr "Limit must be between 1 and 500")
    ∧ validate_limit (.int 501) = .error (pstr "Limit must be between 1 and 500")
    ∧ validate_limit .nonInt = .error (pstr "Input should be a valid integer")
    ∧ validate_limit (.int 1) = .ok (some 1)
    ∧ validate_limit (.int 500) = .ok (some 500)
    ∧ validate_limit .absent = .ok (some 20)
    ∧ (∀ n : Int, n < 1 ∨ 500 < n →
        validate_limit (.int n) = .error (pstr "Limit must be between 1 and 500"))
    ∧ (∀ (url : PyStr) (lf : JsonLimit) (msg : PyStr),
        parse_request url lf = .error msg →
        ∀ (out1 out2 : ProviderOutcome) (w1 w2 : Bool),
          service_handle url lf out1 w1 = (422, msg)
          ∧ service_handle url lf out1 w1 = service_handle url lf out2 w2) := by
  refine ⟨by decide, by decide, rfl, by decide, by decide, rfl, ?_, ?_⟩
  · intro n hn
    simp only [validate_limit]
    rw [if_pos]
    omega
  · intro url lf msg h out1 out2 w1 w2
    simp [service_handle, h]

/-- C8 witness: a request with `limit = 0` is answered with the validation
message whatever the provider or filesystem would have done. -/
theorem C8_witness :
    service_handle (pstr "http://x.com") (.int 0) (.result [pageHome]) true
      = (422, pstr "Limit must be between 1 and 500")
    ∧ service_handle (pstr "http://x.com") (.int 0) (.result [pageHome]) true
      = service_handle (pstr "http://x.com") (.int 0) .noResponse false
    ∧ validate_limit (.int 501) = .error (pstr "Limit must be between 1 and 500") := by
  refine ⟨?_, ?_, C8_limit_validation.2.1⟩
  · exact (C8_limit_validation.2.2.2.2.2.2.2 (pstr "http://x.com") (.int 0)
      (pstr "Limit must be between 1 and 500") (by decide)
      (.result [pageHome]) .noResponse true false).1
  · exact (C8_limit_validation.2.2.2.2.2.2.2 (pstr "http://x.com") (.int 0)
      (pstr "Limit must be between 1 and 500") (by decide)
      (.result [pageHome]) .noResponse true false).2

/-- Unfolding: a 202 response polls again after the 5-second sleep. -/
theorem run_poll_loop_202 (b : PyStr) (rest : List PollOutcome) :
    run_poll_loop (.response 202 b :: rest)
      = ((run_poll_loop rest).1,
        .getStatus :: .sleepSec 5 :: (run_poll_loop rest).2) := by
  simp [run_poll_loop]

/-- Unfolding: a non-202 response terminates the loop at once. -/
theorem run_poll_loop_term (c : Nat) (b : PyStr) (rest : List PollOutcome)
    (hc : c ≠ 202) :
    run_poll_loop (.response c b :: rest)
      = ((if 400 ≤ c ∧ c < 600 then LoopResult.httpFailure c b else .success b),
        [.getStatus]) := by
  simp only [run_poll_loop]
  rw [if_neg hc]
  split_ifs <;> rfl

/-- C7 counterexample: a first non-202 response with status 204 terminates
the loop rendered as success, although 204 is not 200 — the claim's
"success on 200, failure otherwise" does not hold. -/
theorem C7_counterexample :
    run_poll_loop [.response 204 (pstr "no content")]
      = (.success (pstr "no content"), [.getStatus])
    ∧ (204 : Nat) ≠ 200 ∧ (204 : Nat) ≠ 202 := by
  decide

/-- C7 (amended): each 202 response causes one further status request after
a fixed 5-second sleep; the first non-202 outcome terminates the loop with
no further request — rendered as success for any response status outside
400..599 and as failure for 400..599 — and a network error from the status
request itself ends the loop immediately, whatever outcomes would have
followed. -/
theorem C7_polling_loop :
    (∀ (pre rest : List PollOutcome) (o : PollOutcome),
      (∀ x ∈ pre, is202 x = true) → is202 o = false →
      run_poll_loop (pre ++ o :: rest)
        = ((match o with
            | .netError m => .netFailure m
            | .response c b =>
              if 400 ≤ c ∧ c < 600 then .httpFailure c b else .success b),
          pre.flatMap (fun _ => [ClientEvent.getStatus, ClientEvent.sleepSec 5])
            ++ [ClientEvent.getStatus]))
    ∧ (∀ outs : List PollOutcome, (∀ x ∈ outs, is202 x = true) →
        run_poll_loop outs
          = (.scriptEnded,
            outs.flatMap (fun _ => [ClientEvent.getStatus, ClientEvent.sleepSec 5]))) := by
  constructor
  · intro pre
    induction pre with
    | nil =>
      intro rest o _ ho
      cases o with
      | netError m => simp [run_poll_loop]
      | response c b =>
        have hc : ¬c = 202 := by simpa [is202] using ho
        rw [List.nil_append, run_poll_loop_term c b rest hc]
        simp
    | cons x pre2 ih =>
      intro rest o hpre ho
      have hx := hpre x (List.mem_cons_self _ _)
      cases x with
      | netError m => simp [is202] at hx
      | response c b =>
        have hc : c = 202 := by simpa [is202] using hx
        subst hc
        have h2 := ih rest o (fun y hy => hpre y (List.mem_cons_of_mem _ hy)) ho
        rw [List.cons_append, run_poll_loop_202, h2]
        simp
  · intro outs
    induction outs with
    | nil => intro _; rfl
    | cons x rest ih =>
      intro h
      have hx := h x (List.mem_cons_self _ _)
      cases x with
      | netError m => simp [is202] at hx
      | response c b =>
        have hc : c = 202 := by simpa [is202] using hx
        subst hc
        have h2 := ih (fun y hy => h y (List.mem_cons_of_mem _ hy))
        rw [run_poll_loop_202, h2]
        simp

/-- C7 witness: one 202 (sleep 5, poll again), then a 200 ends the loop
with success; the trailing scripted outcome is never requested. -/
theorem C7_witness :
    run_poll_loop
        [.response 202 (pstr "w"), .response 200 (pstr "doc"), .netError (pstr "x")]
      = (.success (pstr "doc"), [.getStatus, .sleepSec 5, .getStatus]) := by
  have h := C7_polling_loop.1 [.response 202 (pstr "w")] [.netError (pstr "x")]
    (.response 200 (pstr "doc")) (by decide) (by decide)
  have he : ([PollOutcome.response 202 (pstr "w")]
        ++ PollOutcome.response 200 (pstr "doc") :: [PollOutcome.netError (pstr "x")])
      = [.response 202 (pstr "w"), .response 200 (pstr "doc"), .netError (pstr "x")] := rfl
  rw [he] at h
  exact h.trans (by decide)

/-- C1 (spec-modelled): the async POST responds 202-equivalent with
`{job_id, status_url}`, and `GET /crawl-status/{job_id}` returns 202 with
the progress text while the job is pending or running, 200 with the
aggregated document when the job completed and aggregation succeeds, and
400 with a failure notice when the job failed or was cancelled. -/
theorem C1_job_lifecycle :
    (∀ job_id : PyStr, generate_llms_txt_async job_id
        = (202, job_id, pstr "/crawl-status/" ++ job_id))
    ∧ (∀ job : ProviderJob, job.status = .pending ∨ job.status = .running →
        crawl_status job = (202, pstr "Job is still running. Status: "
          ++ statusText job.status ++ pstr ". Completed "
          ++ natStr job.completedPages ++ pstr "/" ++ natStr job.totalPages
          ++ pstr " pages."))
    ∧ (∀ (job : ProviderJob) (doc : PyStr), job.status = .completed →
        aggregatePipeline job.data = .ok doc → crawl_status job = (200, doc))
    ∧ (∀ job : ProviderJob, job.status = .failed ∨ job.status = .cancelled →
        crawl_status job = (400, pstr "Job failed or was cancelled. Status: "
          ++ statusText job.status)) := by
  refine ⟨fun _ => rfl, ?_, ?_, ?_⟩
  · intro job h
    obtain ⟨st, cp, tp, data⟩ := job
    simp only at h
    rcases h with rfl | rfl <;> rfl
  · intro job doc hst hagg
    obtain ⟨st, cp, tp, data⟩ := job
    simp only at hst
    subst hst
    simp only [crawl_status] at *
    rw [hagg]
  · intro job h
    obtain ⟨st, cp, tp, data⟩ := job
    simp only at h
    rcases h with rfl | rfl <;> rfl

/-- C1 witness: concrete responses for a running, a completed and a
cancelled job. -/
theorem C1_witness :
    generate_llms_txt_async (pstr "j1") = (202, pstr "j1", pstr "/crawl-status/j1")
    ∧ crawl_status ⟨.running, 1, 2, []⟩
        = (202, pstr "Job is still running. Status: running. Completed 1/2 pages.")
    ∧ crawl_status ⟨.completed, 2, 2, [pageHome, pagePost]⟩
        = (200, pstr "## Blog\n\n- [Post 1](https://example.com/blog/post-1): first post\n\n## Homepage\n\n- [Home](https://example.com/)")
    ∧ crawl_status ⟨.cancelled, 1, 2, []⟩
        = (400, pstr "Job failed or was cancelled. Status: cancelled") := by
  refine ⟨(C1_job_lifecycle.1 (pstr "j1")).trans (by decide),
    (C1_job_lifecycle.2.1 ⟨.running, 1, 2, []⟩ (Or.inr rfl)).trans (by decide),
    C1_job_lifecycle.2.2.1 ⟨.completed, 2, 2, [pageHome, pagePost]⟩ _ rfl (by decide),
    (C1_job_lifecycle.2.2.2 ⟨.cancelled, 1, 2, []⟩ (Or.inr rfl)).trans (by decide)⟩

/-- C3 counterexample: on a concrete group the code separates the heading
from its entries with a blank line and renders an absent title as
`No Title` and an empty description as no suffix, so the output differs
from the claim's rendering (heading directly followed by entries, title
falling back to the group key, suffix whenever a description is
present). -/
theorem C3_counterexample :
    format_groups_to_llmstxt cexGroup
      = .ok (pstr "## Blog\n\n- [No Title](https://x.com/blog)\n- [T](https://x.com/blog/a)")
    ∧ claimFormat cexGroup
      = pstr "## Blog\n- [Blog](https://x.com/blog)\n- [T](https://x.com/blog/a): "
    ∧ format_groups_to_llmstxt cexGroup ≠ .ok (claimFormat cexGroup) := by
  decide

/-- C3 (amended): for every non-empty group mapping whose pages carry a
metadata mapping, `format_groups_to_llmstxt` succeeds and renders the
groups in ascending lexicographic key order, each as a `## {groupKey}`
heading, a blank line, then one `- [{title}]({sourceUrl})` line per entry
(title falling back to `No Title` when absent and to the group key when
present but empty, with a `: {description}` suffix exactly when a
non-empty description is present), consecutive parts separated by one
blank line and entries by single newlines. -/
theorem C3_format_document (g : GroupDict) (hne : g ≠ [])
    (hmeta : ∀ kp ∈ g, ∀ q ∈ kp.2, (CrawledPage.metadata q).isSome = true) :
    format_groups_to_llmstxt g = .ok (specFormat g)
    ∧ List.Pairwise (fun a b : PyStr × List CrawledPage =>
        lexLt a.1 b.1 = true ∨ a.1 = b.1) (sortByKey g)
    ∧ List.Perm (sortByKey g) g :=
  ⟨format_eq_specFormat g hne hmeta, sortByKey_sorted_ascending g, sortByKey_perm g⟩

/-- C3 witness: a two-group mapping given in descending key order is
rendered sorted ascending with the amended layout. -/
theorem C3_witness :
    format_groups_to_llmstxt [(pstr "Homepage", [pageHome]), (pstr "Blog", [pagePost])]
      = .ok (specFormat [(pstr "Homepage", [pageHome]), (pstr "Blog", [pagePost])])
    ∧ specFormat [(pstr "Homepage", [pageHome]), (pstr "Blog", [pagePost])]
      = pstr "## Blog\n\n- [Post 1](https://example.com/blog/post-1): first post\n\n## Homepage\n\n- [Home](https://example.com/)" := by
  refine ⟨(C3_format_document [(pstr "Homepage", [pageHome]), (pstr "Blog", [pagePost])]
    (by decide) (by decide)).1, by decide⟩
